import Mathlib

/-!
A verification development for the `dalek_history` proof-repair mining
pipeline (`src/evals/src/evals/dalek_history`).  The Python modules
`verification.py`, `git_ops.py`, `snapshot.py`, `structures.py` and the
two-phase pipeline of `__init__.py` are embedded shallowly: external
effects (git subcommands, the `lake build` subprocess, the filesystem)
become oracles mapping the history of performed operations to an outcome,
so that the embedded pipeline is a pure, executable function of its
environment.  Python exceptions that can escape a function are modelled
with `Except`; exceptions a function catches are folded into its result.
-/

namespace DalekHistory

/-- Whether a character list starts with the given pattern list. -/
def startsWithChars : List Char → List Char → Bool
  | _, [] => true
  | [], _ :: _ => false
  | a :: as, b :: bs => a == b && startsWithChars as bs

/-- Python's `pat in hay` substring test, on character lists. -/
def charsContain : List Char → List Char → Bool
  | [], pat => pat.isEmpty
  | c :: rest, pat => startsWithChars (c :: rest) pat || charsContain rest pat

/-- Python's `pat in hay` substring test on strings. -/
def containsSubstring (hay pat : String) : Bool :=
  charsContain hay.data pat.data

/-- ASCII lower-casing of one character (the fragment of Python's
`str.lower` exercised by the pipeline's ASCII pattern tables). -/
def asciiLowerChar (c : Char) : Char :=
  if 'A' ≤ c ∧ c ≤ 'Z' then Char.ofNat (c.toNat + 32) else c

/-- Python `s.lower()` for ASCII text. -/
def pyLower (s : String) : String :=
  String.mk (s.data.map asciiLowerChar)

/-- Split a character list at every occurrence of `sep`; Python
`str.split(sep)` semantics for a one-character separator (no collapsing,
the empty input yields one empty group). -/
def splitOnChar (sep : Char) : List Char → List (List Char)
  | [] => [[]]
  | c :: cs =>
    if c == sep then [] :: splitOnChar sep cs
    else
      match splitOnChar sep cs with
      | [] => [[c]]
      | g :: gs => (c :: g) :: gs

/-- Python `stderr.split("\n")`. -/
def pyLines (s : String) : List String :=
  (splitOnChar '\n' s.data).map String.mk

/-- Truthiness of Python `line.strip()`: the line has a non-whitespace
character. -/
def stripNonempty (s : String) : Bool :=
  s.data.any (fun c => !c.isWhitespace)

/-- Python `s[:n]` (by code point). -/
def pyTake (s : String) (n : Nat) : String :=
  String.mk (s.data.take n)

/-- Fueled worker for `pyReplace`; the fuel starts at the subject's length
and every step consumes at least one subject character, so it never runs
out for a non-empty pattern. -/
def replaceFuel (pat rep : List Char) : Nat → List Char → List Char
  | 0, s => s
  | _ + 1, [] => []
  | n + 1, c :: cs =>
    if startsWithChars (c :: cs) pat then
      rep ++ replaceFuel pat rep n (List.drop (pat.length - 1) cs)
    else c :: replaceFuel pat rep n cs

/-- Python `s.replace(pat, rep)` for a non-empty pattern (left-to-right,
non-overlapping, all occurrences).  The pipeline only replaces the
non-empty patterns `"/"` and `".lean"`, so the empty-pattern case (where
Python would interleave `rep` everywhere) is left as the identity. -/
def pyReplace (s pat rep : String) : String :=
  if pat.data.isEmpty then s
  else String.mk (replaceFuel pat.data rep.data s.data.length s.data)

/-- Final path component, as in `pathlib.PurePath.name` for the plain
relative file paths the pipeline handles. -/
def pathFinalName (p : String) : String :=
  String.mk ((splitOnChar '/' p.data).getLastD [])

/-- Index of the last `'.'` in a character list, if any. -/
def lastDotIndex (cs : List Char) : Option Nat :=
  match cs.reverse.findIdx? (fun c => c == '.') with
  | none => none
  | some j => some (cs.length - 1 - j)

/-- Python `Path(p).stem`: the final component without its last suffix;
the suffix is dropped only when the last dot is neither the first nor the
last character of the name. -/
def pathStem (p : String) : String :=
  let name := pathFinalName p
  let cs := name.data
  match lastDotIndex cs with
  | none => name
  | some i => if 0 < i ∧ i < cs.length - 1 then String.mk (cs.take i) else name

/-- Python `s.strip()`: drop leading and trailing whitespace (the ASCII
whitespace the commit messages in play contain). -/
def pyStrip (s : String) : String :=
  String.mk
    (((s.data.dropWhile Char.isWhitespace).reverse.dropWhile
        Char.isWhitespace).reverse)

/-- Python `x or d` for an optional string: `None` and the empty string
are falsy and give the default. -/
def pyOrDefault (x : Option String) (d : String) : String :=
  match x with
  | none => d
  | some s => if s.data.isEmpty then d else s

/-- Outcome of the `lake build` subprocess invocation inside
`run_lake_build` (`verification.py`): a completed process with an exit
code and captured streams, a kill-on-timeout (`subprocess.TimeoutExpired`,
whose attached streams are optional byte strings, decoded by the handler),
or any other raised exception — all three are caught by `run_lake_build`
itself. -/
inductive BuildOutcome where
  | completed (returncode : Int) (stdout : String) (stderr : String)
  | timedOut (stdout : Option String) (stderr : Option String)
  | raised (message : String)
  deriving DecidableEq

/-- `structures.VerificationResult`. -/
structure VerificationResult where
  success : Bool
  stdout : String
  stderr : String
  error_message : Option String
  timeout : Bool
  deriving DecidableEq

/-- `verification.parse_lean_error`: first `": error:"` line of stderr,
else the first non-blank line truncated to 200 characters, else the first
200 characters of stderr, else `"Unknown error"`. -/
def parse_lean_error (stderr : String) : String :=
  let lines := pyLines stderr
  match lines.filter (fun l => containsSubstring l ": error:") with
  | l :: _ => l
  | [] =>
    match lines.filter stripNonempty with
    | l :: _ => pyTake l 200
    | [] => if stderr.data.isEmpty then "Unknown error" else pyTake stderr 200

/-- `verification.run_lake_build`, as a total function of the subprocess
outcome: the Python function catches `subprocess.TimeoutExpired` and every
other `Exception`, so it always returns a `VerificationResult`. -/
def run_lake_build : BuildOutcome → VerificationResult
  | .completed rc out err =>
    { success := rc == 0
      stdout := out
      stderr := err
      error_message := if rc == 0 then none else some (parse_lean_error err)
      timeout := false }
  | .timedOut out err =>
    { success := false
      stdout := out.getD ""
      stderr := err.getD ""
      error_message := some "Build timed out"
      timeout := true }
  | .raised msg =>
    { success := false
      stdout := ""
      stderr := msg
      error_message := some ("Exception: " ++ msg)
      timeout := false }

/-- The proof-failure vocabulary of `verification.is_verification_error`. -/
def verification_pattern_list : List String :=
  ["type mismatch", "failed to synthesize", "unsolved goals", "tactic",
   "unknown identifier", "application type mismatch", "invalid"]

/-- The infrastructure-failure vocabulary of
`verification.is_verification_error`. -/
def exclude_pattern_list : List String :=
  ["error: import", "error: unknown package", "error: file not found",
   "syntax error"]

/-- `verification.is_verification_error`: lower-case the stderr text,
return `false` if any exclude pattern occurs, else whether any
verification pattern occurs. -/
def is_verification_error (stderr : String) : Bool :=
  let low := pyLower stderr
  if exclude_pattern_list.any (fun p => containsSubstring low p) then false
  else verification_pattern_list.any (fun p => containsSubstring low p)

/-- Module name `run_lake_build` derives from a `.lean` path: `/` becomes
`.` and the `.lean` suffix is dropped. -/
def module_of (file : String) : String :=
  pyReplace (pyReplace file "/" ".") ".lean" ""

/-- `structures.FileClassification` content counters, as produced by the
file classifier. -/
structure FileClassification where
  is_definition : Bool
  is_proof : Bool
  theorem_count : Nat
  lemma_count : Nat
  tactic_block_count : Nat
  deriving DecidableEq

/-- A git commit as the pipeline reads it off GitPython: hash, message,
author, commit timestamp and parent hashes (first parent first). -/
structure Commit where
  hexsha : String
  message : String
  author : String
  date : Int
  parents : List String
  deriving DecidableEq

/-- `structures.CommitCandidate`. -/
structure CommitCandidate where
  commit_hash : String
  commit_message : String
  author : String
  date : Int
  definition_files : List String
  proof_files : List String
  deriving DecidableEq

/-- `structures.Challenge`.  The snapshot dictionary is kept as the list
of entries in insertion order. -/
structure Challenge where
  task_id : String
  commit_hash : String
  proof_file : String
  definition_files : List String
  author_fix_diff : String
  error_message : String
  codebase_snapshot : List (String × String)
  verification_command : String
  deriving DecidableEq

/-- `structures.MiningResult`.  `skipped_reasons` is the reason-to-count
dictionary, kept as an association list in insertion order. -/
structure MiningResult where
  total_commits : Nat
  candidates : Nat
  valid_challenges : Nat
  challenges : List Challenge
  skipped_reasons : List (String × Nat)
  deriving DecidableEq

/-- The configuration fields the mining pipeline reads
(`config.Config`, flattened to the consumed leaves). -/
structure Config where
  max_commits : Int
  min_theorem_count : Nat
  min_tactic_blocks : Nat
  timeout_seconds : Int
  deriving DecidableEq

/-- The externally visible operations Phase B performs against the
working tree and the build tool, in the order the pipeline issues them.
`checkout` is `git checkout --force <hash>` (issued by `safe_checkout`),
`revert` is `git checkout <parent> -- <file>` (issued by
`restore_file_from_parent`), `build` is the `lake build <module>`
subprocess, `diff` is `git diff <parent> <hash> -- <file>`, and
`snapshot` is the full `rglob` read of the tree. -/
inductive Op where
  | checkout (hash : String)
  | revert (parent : String) (file : String)
  | build (module : String)
  | diff (parent : String) (hash : String) (file : String)
  | snapshot
  deriving DecidableEq

/-- Outcome of one git subcommand: normal output, or the
`GitCommandError` that GitPython raises when the command exits
non-zero. -/
inductive GitCmdOutcome where
  | ok (output : String)
  | git_error (msg : String)
  deriving DecidableEq

/-- Outcome of `repo.git.diff`: output, a `GitCommandError` (caught by
`get_file_diff`), or some other raised exception, which `get_file_diff`
does not catch and therefore propagates. -/
inductive DiffOutcome where
  | ok (output : String)
  | git_error (msg : String)
  | raised (msg : String)
  deriving DecidableEq

/-- Outcome of reading one blob or file: content, or a raised exception
(caught at every use site in the sources). -/
inductive ReadOutcome where
  | ok (content : String)
  | raised (msg : String)
  deriving DecidableEq

/-- Outcome of `repo_path.rglob("*.lean")` in
`snapshot.capture_codebase_snapshot`: the listed files (relative path
paired with the outcome of reading that file — per-file read failures are
caught and the file skipped), or an exception raised by the directory
walk itself, which the function does not catch. -/
inductive ListingOutcome where
  | ok (files : List (String × ReadOutcome))
  | raised (msg : String)
  deriving DecidableEq

/-- The environment the pipeline runs against.  The read-only repository
data (commit walk, per-commit modified files, the working tree Phase A
reads, per-commit blob contents) is given directly; every Phase B side
effect is an oracle from the history of operations performed so far to
the outcome of the next operation, which makes stateful external tools
expressible while keeping the embedding a pure function.

Two classifier ingredients are parameters because their defining module
is absent from the sources.  `classify` — Modelled from the spec:
`file_classifier.classify_file` is, per the spec, a pure function of the
file's content producing a `FileClassification`; it is taken here as an
arbitrary such function applied to the content read for the file.
`excluded` — Modelled from the spec: `file_classifier.should_exclude_path`
matches a path against the configured exclusion globs; it is taken here
as an arbitrary path predicate. -/
structure MiningEnv where
  commits : List Commit
  modified_files : String → List String
  excluded : String → Bool
  disk : String → Option String
  classify : String → FileClassification
  content_at : String → String → Option String
  checkout_outcome : List Op → String → GitCmdOutcome
  revert_outcome : List Op → String → String → GitCmdOutcome
  build_outcome : List Op → String → Int → BuildOutcome
  diff_outcome : List Op → String → String → String → DiffOutcome
  blob_read : List Op → String → ReadOutcome
  rglob_outcome : List Op → ListingOutcome

/-- The files of a commit that survive the exclusion filter
(`__init__.identify_candidates`, the `should_exclude_path` filter over
`get_modified_files`). -/
def surviving_files (env : MiningEnv) (commit : Commit) : List String :=
  (env.modified_files commit.hexsha).filter (fun f => !env.excluded f)

/-- The classification loop of `identify_candidates`: skip files whose
content cannot be read (the `full_path.exists()` check), append each
readable file to `definition_files` if it classifies as a definition, and
to `proof_files` if it classifies as a proof meeting one of the OR-ed
thresholds.  The `read` argument selects where content comes from — the
source reads the working tree. -/
def classify_partition (classify : String → FileClassification) (cfg : Config)
    (read : String → Option String) (files : List String) :
    List String × List String :=
  files.foldl
    (fun acc f =>
      match read f with
      | none => acc
      | some content =>
        let cl := classify content
        let ds := if cl.is_definition then acc.1 ++ [f] else acc.1
        let ps :=
          if cl.is_proof &&
              (decide (cl.theorem_count ≥ cfg.min_theorem_count) ||
               decide (cl.lemma_count ≥ cfg.min_theorem_count) ||
               decide (cl.tactic_block_count ≥ cfg.min_tactic_blocks)) then
            acc.2 ++ [f]
          else acc.2
        (ds, ps))
    ([], [])

/-- One iteration of the Phase A loop body over a commit, parameterised
by the content source used for classification: skip when no file
survives the exclusion filter, then emit a candidate exactly when both
partitions are non-empty. -/
def process_commit_with (env : MiningEnv) (cfg : Config)
    (read : String → Option String) (commit : Commit) :
    Option CommitCandidate :=
  let current_files := surviving_files env commit
  if current_files.isEmpty then none
  else
    let part := classify_partition env.classify cfg read current_files
    if !part.1.isEmpty && !part.2.isEmpty then
      some
        { commit_hash := commit.hexsha
          commit_message := pyStrip commit.message
          author := commit.author
          date := commit.date
          definition_files := part.1
          proof_files := part.2 }
    else none

/-- The Phase A loop body as the source runs it: classification reads
the file at `repo_path / file_path`, i.e. the current working tree. -/
def process_commit (env : MiningEnv) (cfg : Config) (commit : Commit) :
    Option CommitCandidate :=
  process_commit_with env cfg env.disk commit

/-- Modelled from the spec: the Phase A loop body as §4.2 words it —
classification is a function of the file's content "as it stands at that
commit", so content is read from the commit's own tree instead of the
working tree.  Used only to compare against `process_commit`. -/
def process_commit_spec (env : MiningEnv) (cfg : Config) (commit : Commit) :
    Option CommitCandidate :=
  process_commit_with env cfg (env.content_at commit.hexsha) commit

/-- The definition/proof partition `identify_candidates` computes for a
commit (from the working tree, as the source does). -/
def commit_partition (env : MiningEnv) (cfg : Config) (commit : Commit) :
    List String × List String :=
  classify_partition env.classify cfg env.disk (surviving_files env commit)

/-- The Phase A walk with the `max_commits` cutoff: the counter is
incremented first and the loop breaks when it exceeds a positive
`max_commits`, exactly as in `identify_candidates`. -/
def identify_candidates_from (cfg : Config)
    (pc : Commit → Option CommitCandidate) :
    List Commit → Int → List CommitCandidate
  | [], _ => []
  | c :: rest, processed =>
    let p := processed + 1
    if cfg.max_commits > 0 ∧ p > cfg.max_commits then []
    else
      match pc c with
      | some cand => cand :: identify_candidates_from cfg pc rest p
      | none => identify_candidates_from cfg pc rest p

/-- `__init__.identify_candidates` (Phase A). -/
def identify_candidates (env : MiningEnv) (cfg : Config) :
    List CommitCandidate :=
  identify_candidates_from cfg (process_commit env cfg) env.commits 0

/-- Modelled from the spec: Phase A as §4.2/§4.3 of the spec describe it,
classifying each commit's files from their content at that commit.
Used only to compare against `identify_candidates`. -/
def identify_candidates_spec (env : MiningEnv) (cfg : Config) :
    List CommitCandidate :=
  identify_candidates_from cfg (process_commit_spec env cfg) env.commits 0

/-- `git_ops.safe_checkout`: run `git checkout --force <hash>`, return
`true` on success and `false` on the `GitCommandError` it catches.  The
pair also returns the extended operation history. -/
def safe_checkout (env : MiningEnv) (hist : List Op) (hash : String) :
    Bool × List Op :=
  (match env.checkout_outcome hist hash with
   | .ok _ => true
   | .git_error _ => false,
   hist ++ [Op.checkout hash])

/-- `git_ops.restore_file_from_parent`: `false` without touching the tree
when the commit has no parent, otherwise `git checkout <parent> -- <file>`
with `GitCommandError` caught as `false`. -/
def restore_file_from_parent (env : MiningEnv) (hist : List Op)
    (commit : Commit) (file : String) : Bool × List Op :=
  match commit.parents with
  | [] => (false, hist)
  | parent :: _ =>
    (match env.revert_outcome hist parent file with
     | .ok _ => true
     | .git_error _ => false,
     hist ++ [Op.revert parent file])

/-- `git_ops.get_file_diff`: for a root commit, read the blob (every
exception caught, yielding `""`); otherwise `git diff <parent> <hash> --
<file>` with `GitCommandError` caught as `""` — any other exception
escapes. -/
def get_file_diff (env : MiningEnv) (hist : List Op) (commit : Commit)
    (file : String) : Except String String × List Op :=
  match commit.parents with
  | [] =>
    (match env.blob_read hist file with
     | .ok s => Except.ok s
     | .raised _ => Except.ok "",
     hist)
  | parent :: _ =>
    (match env.diff_outcome hist parent commit.hexsha file with
     | .ok s => Except.ok s
     | .git_error _ => Except.ok ""
     | .raised m => Except.error m,
     hist ++ [Op.diff parent commit.hexsha file])

/-- `snapshot.capture_codebase_snapshot` with `relevant_files=None`:
list every `.lean` file under the root (an exception from the walk itself
escapes) and collect the readable ones, skipping files whose read raises
(that exception is caught). -/
def capture_codebase_snapshot (env : MiningEnv) (hist : List Op) :
    Except String (List (String × String)) × List Op :=
  (match env.rglob_outcome hist with
   | .raised m => Except.error m
   | .ok files =>
     Except.ok
       (files.foldl
         (fun acc pr =>
           match pr.2 with
           | .ok c => acc ++ [(pr.1, c)]
           | .raised _ => acc)
         []),
   hist ++ [Op.snapshot])

/-- One `run_lake_build` call from Phase B: hand the subprocess outcome
for `lake build <module>` (under the configured timeout) to the
exception-catching wrapper `run_lake_build`. -/
def run_lake_build_op (env : MiningEnv) (cfg : Config) (hist : List Op)
    (module : String) : VerificationResult × List Op :=
  (run_lake_build (env.build_outcome hist module cfg.timeout_seconds),
   hist ++ [Op.build module])

/-- The body of the `for proof_file in candidate.proof_files` loop of
`__init__.validate_candidate`: baseline build (skip the file unless it
succeeds), revert the file to the parent state (skip on failure), build
the broken state, and if that failed with a verification-class error,
package a `Challenge` (diff, snapshot, ids); finally re-checkout the
candidate commit.  There is no `finally`: an exception escaping the diff
or snapshot step exits before the trailing `safe_checkout`. -/
def process_proof_file (env : MiningEnv) (cfg : Config)
    (cand : CommitCandidate) (commit : Commit) (hist : List Op)
    (file : String) : Except String (Option Challenge) × List Op :=
  let fixed := run_lake_build_op env cfg hist (module_of file)
  if !fixed.1.success then (Except.ok none, fixed.2)
  else
    let rev := restore_file_from_parent env fixed.2 commit file
    if !rev.1 then (Except.ok none, rev.2)
    else
      let broken := run_lake_build_op env cfg rev.2 (module_of file)
      if !broken.1.success && is_verification_error broken.1.stderr then
        match get_file_diff env broken.2 commit file with
        | (Except.error m, h) => (Except.error m, h)
        | (Except.ok author_fix_diff, h) =>
          match capture_codebase_snapshot env h with
          | (Except.error m, h2) => (Except.error m, h2)
          | (Except.ok snap, h2) =>
            let module_name := module_of file
            let challenge : Challenge :=
              { task_id := pyTake cand.commit_hash 8 ++ "_" ++ pathStem file
                commit_hash := cand.commit_hash
                proof_file := file
                definition_files := cand.definition_files
                author_fix_diff := author_fix_diff
                error_message :=
                  pyOrDefault broken.1.error_message "Unknown error"
                codebase_snapshot := snap
                verification_command := "lake build " ++ module_name }
            let rest := safe_checkout env h2 cand.commit_hash
            (Except.ok (some challenge), rest.2)
      else
        let rest := safe_checkout env broken.2 cand.commit_hash
        (Except.ok none, rest.2)

/-- The proof-file loop of `validate_candidate`, accumulating challenges
in order; an exception escaping one file's processing aborts the whole
candidate. -/
def validate_loop (env : MiningEnv) (cfg : Config) (cand : CommitCandidate)
    (commit : Commit) :
    List Op → List Challenge → List String →
      Except String (List Challenge) × List Op
  | hist, acc, [] => (Except.ok acc, hist)
  | hist, acc, f :: fs =>
    match process_proof_file env cfg cand commit hist f with
    | (Except.error m, h) => (Except.error m, h)
    | (Except.ok none, h) => validate_loop env cfg cand commit h acc fs
    | (Except.ok (some ch), h) =>
      validate_loop env cfg cand commit h (acc ++ [ch]) fs

/-- `__init__.validate_candidate` (Phase B for one candidate): checkout
the candidate commit — a `false` return means the candidate is dropped
with no challenges — look up the commit object, and run the proof-file
loop. -/
def validate_candidate (env : MiningEnv) (cfg : Config)
    (cand : CommitCandidate) (hist : List Op) :
    Except String (List Challenge) × List Op :=
  let co := safe_checkout env hist cand.commit_hash
  if !co.1 then (Except.ok [], co.2)
  else
    match env.commits.find? (fun c => c.hexsha == cand.commit_hash) with
    | none => (Except.error "bad object", co.2)
    | some commit => validate_loop env cfg cand commit co.2 [] cand.proof_files

/-- `skipped_reasons[reason] = skipped_reasons.get(reason, 0) + 1` on the
insertion-ordered association list that models the Python dict. -/
def bump_reason (m : List (String × Nat)) (r : String) :
    List (String × Nat) :=
  if m.any (fun pr => pr.1 == r) then
    m.map (fun pr => if pr.1 == r then (pr.1, pr.2 + 1) else pr)
  else m ++ [(r, 1)]

/-- The Phase B candidate loop of `run_mining`: challenges are appended,
an empty result is counted as `no_verification_error`, and an exception
from `validate_candidate` is caught and counted as `exception` —
processing always continues with the next candidate. -/
def mining_loop (env : MiningEnv) (cfg : Config) :
    List Challenge → List (String × Nat) → List Op →
      List CommitCandidate →
      List Challenge × List (String × Nat) × List Op
  | all, skipped, hist, [] => (all, skipped, hist)
  | all, skipped, hist, cand :: rest =>
    match validate_candidate env cfg cand hist with
    | (Except.ok chs, h) =>
      if !chs.isEmpty then mining_loop env cfg (all ++ chs) skipped h rest
      else
        mining_loop env cfg all (bump_reason skipped "no_verification_error")
          h rest
    | (Except.error _, h) =>
      mining_loop env cfg all (bump_reason skipped "exception") h rest

/-- `__init__.run_mining`: count the commits (capped by a positive
`max_commits`), run Phase A, and either stop there (dry run, with zeroed
Phase B statistics) or run the Phase B loop and assemble the
`MiningResult`.  The second component is the history of working-tree and
subprocess operations the run performed. -/
def run_mining (env : MiningEnv) (cfg : Config) (dry_run : Bool) :
    MiningResult × List Op :=
  let total_commits : Nat :=
    if cfg.max_commits > 0 then
      min env.commits.length cfg.max_commits.toNat
    else env.commits.length
  let candidates := identify_candidates env cfg
  if dry_run then
    ({ total_commits := total_commits
       candidates := candidates.length
       valid_challenges := 0
       challenges := []
       skipped_reasons := [] },
     [])
  else
    let fin := mining_loop env cfg [] [] [] candidates
    ({ total_commits := total_commits
       candidates := candidates.length
       valid_challenges := fin.1.length
       challenges := fin.1
       skipped_reasons := fin.2.1 },
     fin.2.2)

/-- Whether an operation is a full checkout (the restore primitive). -/
def op_is_checkout : Op → Bool
  | .checkout _ => true
  | _ => false

/-- Whether an operation is a single-file revert (the break primitive). -/
def op_is_revert : Op → Bool
  | .revert _ _ => true
  | _ => false

/-- Every revert in the history is followed, strictly later, by some full
checkout: the restore-after-mutation discipline of spec §4.4/§5. -/
def restored_after_revert : List Op → Bool
  | [] => true
  | op :: rest =>
    (if op_is_revert op then rest.any op_is_checkout else true) &&
      restored_after_revert rest

/-- The shape every emitted challenge's `task_id` actually has: the
8-character short hash of the commit and the stem of the proof file,
joined by an underscore. -/
def challenge_task_id_shape (c : Challenge) : Prop :=
  c.task_id = pyTake c.commit_hash 8 ++ "_" ++ pathStem c.proof_file

/-- Pointwise agreement of two environments: same repository data and
extensionally equal effect oracles — an unchanged repository, identical
classification and deterministic external tools. -/
def env_agrees (e1 e2 : MiningEnv) : Prop :=
  e1.commits = e2.commits ∧
  (∀ h, e1.modified_files h = e2.modified_files h) ∧
  (∀ f, e1.excluded f = e2.excluded f) ∧
  (∀ f, e1.disk f = e2.disk f) ∧
  (∀ s, e1.classify s = e2.classify s) ∧
  (∀ h f, e1.content_at h f = e2.content_at h f) ∧
  (∀ ops h, e1.checkout_outcome ops h = e2.checkout_outcome ops h) ∧
  (∀ ops p f, e1.revert_outcome ops p f = e2.revert_outcome ops p f) ∧
  (∀ ops m t, e1.build_outcome ops m t = e2.build_outcome ops m t) ∧
  (∀ ops p h f, e1.diff_outcome ops p h f = e2.diff_outcome ops p h f) ∧
  (∀ ops f, e1.blob_read ops f = e2.blob_read ops f) ∧
  (∀ ops, e1.rglob_outcome ops = e2.rglob_outcome ops)

/-- An all-false classification, for environment corners no claim
exercises. -/
def null_classification : FileClassification :=
  { is_definition := false, is_proof := false, theorem_count := 0,
    lemma_count := 0, tactic_block_count := 0 }

/-- A definition-file classification used by the concrete scenarios. -/
def def_classification : FileClassification :=
  { is_definition := true, is_proof := false, theorem_count := 0,
    lemma_count := 0, tactic_block_count := 0 }

/-- A qualifying proof-file classification used by the concrete
scenarios. -/
def proof_classification : FileClassification :=
  { is_definition := false, is_proof := true, theorem_count := 1,
    lemma_count := 0, tactic_block_count := 0 }

/-- A build oracle that lets the baseline build succeed and makes the
build after a revert fail with an `unsolved goals` stderr: the build
outcome is a function of the last operation performed, i.e. of the
working-tree state Phase B has produced. -/
def break_on_revert_build (hist : List Op) (_module : String)
    (_timeout : Int) : BuildOutcome :=
  match hist.getLast? with
  | some (.revert _ _) => .completed 1 "" "error: unsolved goals"
  | _ => .completed 0 "" ""

/-- Scenario for C1: the candidate commit. -/
def hash_c1 : String := "b0b0c0d0cafecafeb0b0c0d0cafecafeb0b0c0d0"

/-- Scenario for C1: the candidate commit's parent. -/
def parent_c1 : String := "a0a0a0a0cafecafea0a0a0a0cafecafea0a0a0a0"

/-- Scenario for C1: the commit object. -/
def commit_c1 : Commit :=
  { hexsha := hash_c1, message := "fix proof", author := "a", date := 1,
    parents := [parent_c1] }

/-- Scenario for C1: the candidate under validation. -/
def cand_c1 : CommitCandidate :=
  { commit_hash := hash_c1, commit_message := "fix proof", author := "a",
    date := 1, definition_files := ["D.lean"], proof_files := ["P.lean"] }

/-- Scenario for C1: checkout and revert succeed, the baseline build
passes, the post-revert build fails with a verification-class error, and
then the author-diff git call raises an exception that `get_file_diff`
does not catch. -/
def env_c1 : MiningEnv :=
  { commits := [commit_c1]
    modified_files := fun _ => []
    excluded := fun _ => false
    disk := fun _ => none
    classify := fun _ => null_classification
    content_at := fun _ _ => none
    checkout_outcome := fun _ _ => .ok ""
    revert_outcome := fun _ _ _ => .ok ""
    build_outcome := break_on_revert_build
    diff_outcome := fun _ _ _ _ => .raised "UnicodeDecodeError"
    blob_read := fun _ _ => .ok ""
    rglob_outcome := fun _ => .ok [] }

/-- Configuration used by the concrete scenarios. -/
def cfg_demo : Config :=
  { max_commits := -1, min_theorem_count := 1, min_tactic_blocks := 1,
    timeout_seconds := 300 }

/-- Scenario for C2: the candidate commit hash. -/
def hash_c2 : String := "feedc0defeedc0defeedc0defeedc0defeedc0de"

/-- Scenario for C2: a commit whose change set holds one definition file
and two proof files with the same stem in different directories. -/
def commit_c2 : Commit :=
  { hexsha := hash_c2, message := "fix proofs", author := "a", date := 5,
    parents := ["aaaabbbbaaaabbbbaaaabbbbaaaabbbbaaaabbbb"] }

/-- Scenario for C2: both proof files build at the commit, break after
the revert with a verification error, and the packaging steps succeed. -/
def env_c2 : MiningEnv :=
  { commits := [commit_c2]
    modified_files := fun _ => ["Defs.lean", "A/Main.lean", "B/Main.lean"]
    excluded := fun _ => false
    disk := fun f =>
      if f == "Defs.lean" then some "defcontent"
      else if f == "A/Main.lean" then some "proofcontent"
      else if f == "B/Main.lean" then some "proofcontent"
      else none
    classify := fun c =>
      if c == "defcontent" then def_classification
      else if c == "proofcontent" then proof_classification
      else null_classification
    content_at := fun _ _ => none
    checkout_outcome := fun _ _ => .ok ""
    revert_outcome := fun _ _ _ => .ok ""
    build_outcome := break_on_revert_build
    diff_outcome := fun _ _ _ _ => .ok "diff"
    blob_read := fun _ _ => .ok ""
    rglob_outcome := fun _ => .ok [("A/Main.lean", .ok "x")] }

/-- The first challenge the C2 scenario emits. -/
def ch_c2a : Challenge :=
  { task_id := "feedc0de_Main"
    commit_hash := hash_c2
    proof_file := "A/Main.lean"
    definition_files := ["Defs.lean"]
    author_fix_diff := "diff"
    error_message := "error: unsolved goals"
    codebase_snapshot := [("A/Main.lean", "x")]
    verification_command := "lake build A.Main" }

/-- Scenario for C3 and C7: hashes of two commits that both modify the
same definition and proof files. -/
def hash_a3 : String := "1111111122222222111111112222222211111111"

/-- Scenario for C3 and C7: hash of the second commit. -/
def hash_b3 : String := "3333333344444444333333334444444433333333"

/-- Scenario for C3 and C7: the newer commit. -/
def commit_a3 : Commit :=
  { hexsha := hash_a3, message := "m1", author := "a", date := 2,
    parents := [hash_b3] }

/-- Scenario for C3 and C7: the older commit. -/
def commit_b3 : Commit :=
  { hexsha := hash_b3, message := "m2", author := "a", date := 1,
    parents := [] }

/-- Scenario for C3 and C7: both commits modify `D.lean` and `P.lean`;
on the working tree (which is what Phase A reads) `D.lean` classifies as
a definition file and `P.lean` as a qualifying proof file; the content of
`P.lean` at the older commit, however, would not qualify. -/
def env_c7 : MiningEnv :=
  { commits := [commit_a3, commit_b3]
    modified_files := fun _ => ["D.lean", "P.lean"]
    excluded := fun _ => false
    disk := fun f =>
      if f == "D.lean" then some "defcontent"
      else if f == "P.lean" then some "proofcontent"
      else none
    classify := fun c =>
      if c == "defcontent" then def_classification
      else if c == "proofcontent" then proof_classification
      else null_classification
    content_at := fun h f =>
      if f == "D.lean" then some "defcontent"
      else if f == "P.lean" then
        (if h == hash_a3 then some "proofcontent" else some "junk")
      else none
    checkout_outcome := fun _ _ => .ok ""
    revert_outcome := fun _ _ _ => .ok ""
    build_outcome := break_on_revert_build
    diff_outcome := fun _ _ _ _ => .ok "diff"
    blob_read := fun _ _ => .ok ""
    rglob_outcome := fun _ => .ok [] }

/-- Scenario for the C3 witness: a commit whose surviving change set has
a qualifying proof file but no definition file. -/
def env_n3 : MiningEnv :=
  { env_c7 with
    modified_files := fun _ => ["P.lean"] }

/-- The candidate the C3/C7 scenario emits for the newer commit. -/
def cand_a3 : CommitCandidate :=
  { commit_hash := hash_a3, commit_message := "m1", author := "a", date := 2,
    definition_files := ["D.lean"], proof_files := ["P.lean"] }

/-- Scenario for C8: every `git checkout` exits non-zero, so GitPython
raises the `GitCommandError` that `safe_checkout` catches. -/
def env_c8 : MiningEnv :=
  { env_c1 with
    checkout_outcome := fun _ _ => .git_error "exit code 128" }

/-- Scenario for the C6 witness: the C2 environment with an
extensionally equal but syntactically different exclusion predicate. -/
def env_c6b : MiningEnv :=
  { env_c2 with
    excluded := fun f => false && f.length == 0 }

set_option maxRecDepth 16000

/-- Bool-level form of `is_verification_error`: exclude patterns veto,
then verification patterns decide. -/
theorem is_verification_error_eq (s : String) :
    is_verification_error s =
      (!(exclude_pattern_list.any fun p => containsSubstring (pyLower s) p) &&
        (verification_pattern_list.any fun p => containsSubstring (pyLower s) p)) := by
  unfold is_verification_error
  cases h : exclude_pattern_list.any fun p => containsSubstring (pyLower s) p <;>
    simp [h]

/-- C4: `is_verification_error` returns `true` for a stderr text exactly
when the lower-cased text contains at least one pattern of the
proof-failure table and none of the infrastructure-failure table; the
infrastructure check takes precedence, so a text containing both kinds of
pattern is rejected. -/
theorem c4_is_verification_error_iff (s : String) :
    is_verification_error s = true ↔
      ((∃ p ∈ verification_pattern_list,
          containsSubstring (pyLower s) p = true) ∧
       (∀ q ∈ exclude_pattern_list,
          containsSubstring (pyLower s) q = false)) := by
  rw [is_verification_error_eq]
  constructor
  · intro h
    rw [Bool.and_eq_true] at h
    obtain ⟨hex, hver⟩ := h
    rw [List.any_eq_true] at hver
    refine ⟨hver, fun q hq => ?_⟩
    cases hc : containsSubstring (pyLower s) q with
    | false => rfl
    | true =>
      rw [Bool.not_eq_eq_eq_not] at hex
      have : exclude_pattern_list.any (fun p => containsSubstring (pyLower s) p) = true :=
        List.any_eq_true.mpr ⟨q, hq, hc⟩
      rw [this] at hex
      exact Bool.noConfusion hex
  · rintro ⟨hver, hex⟩
    rw [Bool.and_eq_true]
    constructor
    · have : exclude_pattern_list.any (fun p => containsSubstring (pyLower s) p) = false := by
        rw [List.any_eq_false]
        intro q hq
        simp [hex q hq]
      rw [this]
      rfl
    · exact List.any_eq_true.mpr hver

/-- C5: a timed-out build invocation is classified, not propagated: the
result has `success = false`, `timeout = true` and
`error_message = "Build timed out"`; and within Phase B such an outcome on
a proof file's baseline build merely skips that file — `process_proof_file`
returns no challenge and no exception, so the run continues. -/
theorem c5_timeout_classification :
    (∀ (stdout stderr : Option String),
        run_lake_build (BuildOutcome.timedOut stdout stderr) =
          { success := false, stdout := stdout.getD "",
            stderr := stderr.getD "",
            error_message := some "Build timed out", timeout := true }) ∧
    (∀ (env : MiningEnv) (cfg : Config) (cand : CommitCandidate)
        (commit : Commit) (hist : List Op) (file : String)
        (o e : Option String),
        env.build_outcome hist (module_of file) cfg.timeout_seconds =
          BuildOutcome.timedOut o e →
        process_proof_file env cfg cand commit hist file =
          (Except.ok none, hist ++ [Op.build (module_of file)])) := by
  constructor
  · intro o e
    rfl
  · intro env cfg cand commit hist file o e h
    simp [process_proof_file, run_lake_build_op, h, run_lake_build]

/-- C5 witness: the theorem applied to a concrete timed-out outcome. -/
theorem c5_timeout_classification_witness :
    run_lake_build (BuildOutcome.timedOut none (some "partial output")) =
      { success := false, stdout := "", stderr := "partial output",
        error_message := some "Build timed out", timeout := true } ∧
    process_proof_file
        { env_c1 with build_outcome := fun _ _ _ => .timedOut none none }
        cfg_demo cand_c1 commit_c1 [] "P.lean" =
      (Except.ok none, [Op.build "P"]) :=
  ⟨c5_timeout_classification.1 none (some "partial output"),
   c5_timeout_classification.2
     { env_c1 with build_outcome := fun _ _ _ => .timedOut none none }
     cfg_demo cand_c1 commit_c1 [] "P.lean" none none rfl⟩

/-- C9: `run_lake_build` is total over every subprocess outcome (it
catches `TimeoutExpired` and every other `Exception`), its
`error_message` is `none` exactly when `success` is `true`, and a
non-timeout exception is encoded as a failed result whose message starts
with `"Exception:"`. -/
theorem c9_run_lake_build_total (o : BuildOutcome) :
    ((run_lake_build o).error_message = none ↔
      (run_lake_build o).success = true) ∧
    (∀ m, o = BuildOutcome.raised m →
        run_lake_build o =
          { success := false, stdout := "", stderr := m,
            error_message := some ("Exception: " ++ m), timeout := false }) := by
  constructor
  · cases o with
    | completed rc out err =>
      cases h : rc == 0 <;> simp [run_lake_build, h]
    | timedOut o e => simp [run_lake_build]
    | raised m => simp [run_lake_build]
  · rintro m rfl
    rfl

/-- C9 witness: the theorem applied to a concrete raised exception. -/
theorem c9_run_lake_build_total_witness :
    run_lake_build (BuildOutcome.raised "boom") =
      { success := false, stdout := "", stderr := "boom",
        error_message := some ("Exception: " ++ "boom"), timeout := false } :=
  (c9_run_lake_build_total (BuildOutcome.raised "boom")).2 "boom" rfl

/-- C10: with the dry-run flag, `run_mining` performs Phase A only — the
operation history is empty, so no checkout, revert or build happens —
and the result records zero valid challenges, an empty challenge list
and an empty skip-reason mapping. -/
theorem c10_dry_run (env : MiningEnv) (cfg : Config) :
    (run_mining env cfg true).2 = [] ∧
    (run_mining env cfg true).1.valid_challenges = 0 ∧
    (run_mining env cfg true).1.challenges = [] ∧
    (run_mining env cfg true).1.skipped_reasons = [] :=
  ⟨rfl, rfl, rfl, rfl⟩

/-- C8: `safe_checkout` returns `true` when the forced checkout
succeeds, returns `false` (instead of raising) when the git command
fails with the `GitCommandError` it catches, and its caller
`validate_candidate` treats `false` as "candidate unusable": it returns
an empty challenge list after that single checkout attempt, performing
no retry and no further operation. -/
theorem c8_safe_checkout_contract :
    (∀ (env : MiningEnv) (hist : List Op) (hash out : String),
        env.checkout_outcome hist hash = GitCmdOutcome.ok out →
        (safe_checkout env hist hash).1 = true) ∧
    (∀ (env : MiningEnv) (hist : List Op) (hash msg : String),
        env.checkout_outcome hist hash = GitCmdOutcome.git_error msg →
        (safe_checkout env hist hash).1 = false) ∧
    (∀ (env : MiningEnv) (cfg : Config) (cand : CommitCandidate)
        (hist : List Op) (msg : String),
        env.checkout_outcome hist cand.commit_hash =
          GitCmdOutcome.git_error msg →
        validate_candidate env cfg cand hist =
          (Except.ok [], hist ++ [Op.checkout cand.commit_hash])) := by
  refine ⟨?_, ?_, ?_⟩
  · intro env hist hash out h
    simp [safe_checkout, h]
  · intro env hist hash msg h
    simp [safe_checkout, h]
  · intro env cfg cand hist msg h
    simp [validate_candidate, safe_checkout, h]

/-- C8 witness: the theorem applied to an environment whose checkout
always fails with a `GitCommandError`. -/
theorem c8_safe_checkout_contract_witness :
    (safe_checkout env_c8 [] hash_c1).1 = false ∧
    validate_candidate env_c8 cfg_demo cand_c1 [] =
      (Except.ok [], [Op.checkout hash_c1]) ∧
    (safe_checkout env_c1 [] hash_c1).1 = true :=
  ⟨c8_safe_checkout_contract.2.1 env_c8 [] hash_c1 "exit code 128" rfl,
   c8_safe_checkout_contract.2.2 env_c8 cfg_demo cand_c1 [] "exit code 128" rfl,
   c8_safe_checkout_contract.1 env_c1 [] hash_c1 "" rfl⟩

/-- C1 (code bug): `validate_candidate` has no try/finally around the
revert window, so when the author-diff step of challenge packaging raises
after a successful revert, the exception escapes before the trailing
`safe_checkout` — the operation history of the concrete run ends at the
`diff`, contains the `revert`, and contains no restore after it, although
the revert succeeded and the next candidate would be attempted next. -/
theorem c1_restore_skipped_on_raise :
    validate_candidate env_c1 cfg_demo cand_c1 [] =
      (Except.error "UnicodeDecodeError",
       [Op.checkout hash_c1, Op.build "P", Op.revert parent_c1 "P.lean",
        Op.build "P", Op.diff parent_c1 hash_c1 "P.lean"]) ∧
    restored_after_revert (validate_candidate env_c1 cfg_demo cand_c1 []).2 =
      false :=
  ⟨rfl, rfl⟩

/-- C2 counterexample: one mining run over a single commit that emits two
challenges for two different proof files whose stems coincide — the two
`task_id` values are identical, so the task_ids of one run are not
pairwise unique. -/
theorem c2_task_id_collision :
    (run_mining env_c2 cfg_demo false).1.challenges.map Challenge.task_id =
      ["feedc0de_Main", "feedc0de_Main"] ∧
    (run_mining env_c2 cfg_demo false).1.challenges.map Challenge.proof_file =
      ["A/Main.lean", "B/Main.lean"] :=
  ⟨rfl, rfl⟩

/-- C7 counterexample: Phase A classifies from the current working tree,
not from the file content at the commit being examined — on a two-commit
history where the proof file's content at the older commit would not
qualify, the source pipeline still emits candidates for both commits,
while the spec-worded variant (classifying content as it stands at each
commit) emits only one. -/
theorem c7_working_tree_classification :
    identify_candidates env_c7 cfg_demo =
      [cand_a3,
       { commit_hash := hash_b3, commit_message := "m2", author := "a",
         date := 1, definition_files := ["D.lean"],
         proof_files := ["P.lean"] }] ∧
    identify_candidates_spec env_c7 cfg_demo = [cand_a3] :=
  ⟨rfl, rfl⟩

/-- C7 amended: files are re-classified on every commit with no caching,
but always from the working tree, so the classification Phase A uses is
independent of the per-commit file contents: replacing the per-commit
content map changes nothing in `identify_candidates`. -/
theorem c7_classification_commit_independent (env : MiningEnv) (cfg : Config)
    (f : String → String → Option String) :
    identify_candidates { env with content_at := f } cfg =
      identify_candidates env cfg :=
  rfl

/-- C6: the pipeline is deterministic — two runs against pointwise-equal
environments (an unchanged repository, identical configuration and
extensionally equal, deterministic external tools) produce the same
`MiningResult` and the same operation history. -/
theorem c6_determinism (e1 e2 : MiningEnv) (cfg : Config) (dry : Bool)
    (h : env_agrees e1 e2) :
    run_mining e1 cfg dry = run_mining e2 cfg dry := by
  obtain ⟨h1, h2, h3, h4, h5, h6, h7, h8, h9, h10, h11, h12⟩ := h
  have he : e1 = e2 := by
    cases e1
    cases e2
    simp only [MiningEnv.mk.injEq]
    exact ⟨h1, funext h2, funext h3, funext h4, funext h5,
      funext fun a => funext (h6 a),
      funext fun a => funext (h7 a),
      funext fun a => funext fun b => funext (h8 a b),
      funext fun a => funext fun b => funext (h9 a b),
      funext fun a => funext fun b => funext fun c => funext (h10 a b c),
      funext fun a => funext (h11 a),
      funext h12⟩
  rw [he]

/-- C6 witness: the theorem applied to the C2 environment and a
syntactically different but pointwise-equal copy of it. -/
theorem c6_determinism_witness :
    run_mining env_c2 cfg_demo false = run_mining env_c6b cfg_demo false :=
  c6_determinism env_c2 env_c6b cfg_demo false
    ⟨rfl, fun _ => rfl, fun _ => rfl, fun _ => rfl, fun _ => rfl,
     fun _ _ => rfl, fun _ _ => rfl, fun _ _ _ => rfl, fun _ _ _ => rfl,
     fun _ _ _ _ => rfl, fun _ _ => rfl, fun _ => rfl⟩

/-- Every challenge `process_proof_file` packages has the derived
task id. -/
theorem process_proof_file_task_id (env : MiningEnv) (cfg : Config)
    (cand : CommitCandidate) (commit : Commit) (hist : List Op)
    (file : String) (ch : Challenge)
    (h : (process_proof_file env cfg cand commit hist file).1 =
      Except.ok (some ch)) :
    challenge_task_id_shape ch := by
  simp only [process_proof_file] at h
  split at h
  · simp at h
  · split at h
    · simp at h
    · split at h
      · split at h
        · simp at h
        · split at h
          · simp at h
          · simp only [Except.ok.injEq, Option.some.injEq] at h
            subst h
            rfl
      · simp at h

/-- The proof-file loop preserves the task-id shape of accumulated
challenges. -/
theorem validate_loop_task_id (env : MiningEnv) (cfg : Config)
    (cand : CommitCandidate) (commit : Commit) :
    ∀ (fs : List String) (hist : List Op) (acc chs : List Challenge)
      (h2 : List Op),
      (∀ c ∈ acc, challenge_task_id_shape c) →
      validate_loop env cfg cand commit hist acc fs = (Except.ok chs, h2) →
      ∀ c ∈ chs, challenge_task_id_shape c := by
  intro fs
  induction fs with
  | nil =>
    intro hist acc chs h2 hacc heq
    simp only [validate_loop, Prod.mk.injEq, Except.ok.injEq] at heq
    obtain ⟨h1, -⟩ := heq
    subst h1
    exact hacc
  | cons f fs ih =>
    intro hist acc chs h2 hacc heq
    rw [validate_loop] at heq
    rcases hp : process_proof_file env cfg cand commit hist f with ⟨res, hh⟩
    rw [hp] at heq
    cases res with
    | error m => simp at heq
    | ok oc =>
      cases oc with
      | none => exact ih hh acc chs h2 hacc heq
      | some ch =>
        refine ih hh (acc ++ [ch]) chs h2 ?_ heq
        intro c hc
        rcases List.mem_append.mp hc with hc | hc
        · exact hacc c hc
        · have hcc : c = ch := by simpa using hc
          subst hcc
          exact process_proof_file_task_id env cfg cand commit hist f c
            (by rw [hp])

/-- Every challenge `validate_candidate` returns has the derived task
id. -/
theorem validate_candidate_task_id (env : MiningEnv) (cfg : Config)
    (cand : CommitCandidate) (hist : List Op) (chs : List Challenge)
    (h2 : List Op)
    (h : validate_candidate env cfg cand hist = (Except.ok chs, h2)) :
    ∀ c ∈ chs, challenge_task_id_shape c := by
  simp only [validate_candidate] at h
  split at h
  · simp only [Prod.mk.injEq, Except.ok.injEq] at h
    obtain ⟨h1, -⟩ := h
    subst h1
    intro c hc
    simp at hc
  · split at h
    · simp at h
    · exact validate_loop_task_id env cfg cand _ cand.proof_files _ [] chs h2
        (by intro c hc; simp at hc) h

/-- The candidate loop only accumulates challenges with the derived task
id. -/
theorem mining_loop_task_id (env : MiningEnv) (cfg : Config) :
    ∀ (cands : List CommitCandidate) (all : List Challenge)
      (skipped : List (String × Nat)) (hist : List Op),
      (∀ c ∈ all, challenge_task_id_shape c) →
      ∀ c ∈ (mining_loop env cfg all skipped hist cands).1,
        challenge_task_id_shape c := by
  intro cands
  induction cands with
  | nil =>
    intro all skipped hist hall
    simpa [mining_loop] using hall
  | cons cand rest ih =>
    intro all skipped hist hall
    rw [mining_loop]
    split
    · next chs hh heq =>
      split
      · next hne =>
        refine ih (all ++ chs) skipped hh ?_
        intro c hc
        rcases List.mem_append.mp hc with hc | hc
        · exact hall c hc
        · exact validate_candidate_task_id env cfg cand hist chs hh heq c hc
      · next hne =>
        exact ih all (bump_reason skipped "no_verification_error") hh hall
    · next m hh heq =>
      exact ih all (bump_reason skipped "exception") hh hall

/-- C2 amended: every challenge emitted by a (non-dry) mining run has
`task_id = short-hash ++ "_" ++ stem(proof_file)`; task ids are therefore
pairwise unique exactly when those (short hash, stem) pairs are, and two
proof files of one commit with equal stems collide. -/
theorem c2_task_id_shape (env : MiningEnv) (cfg : Config) (ch : Challenge)
    (h : ch ∈ (run_mining env cfg false).1.challenges) :
    challenge_task_id_shape ch :=
  mining_loop_task_id env cfg (identify_candidates env cfg) [] [] []
    (by intro c hc; simp at hc) ch h

/-- C2 amended witness: the derivation law applied to the first
challenge of the colliding C2 run. -/
theorem c2_task_id_shape_witness : challenge_task_id_shape ch_c2a :=
  c2_task_id_shape env_c2 cfg_demo ch_c2a (by decide)

/-- `classify_partition` of no files is the empty partition. -/
theorem classify_partition_nil (cl : String → FileClassification)
    (cfg : Config) (read : String → Option String) :
    classify_partition cl cfg read [] = ([], []) :=
  rfl

/-- The Phase A loop body emits a candidate exactly when both partitions
are non-empty, for any content source. -/
theorem process_commit_with_isSome (env : MiningEnv) (cfg : Config)
    (read : String → Option String) (commit : Commit) :
    (process_commit_with env cfg read commit).isSome = true ↔
      ((classify_partition env.classify cfg read
          (surviving_files env commit)).1 ≠ [] ∧
       (classify_partition env.classify cfg read
          (surviving_files env commit)).2 ≠ []) := by
  unfold process_commit_with
  cases hE : (surviving_files env commit).isEmpty with
  | true =>
    have hnil : surviving_files env commit = [] := List.isEmpty_iff.mp hE
    rw [hnil]
    simp [classify_partition]
  | false =>
    simp only [hE, Bool.false_eq_true, if_false]
    cases h1 : (classify_partition env.classify cfg read
        (surviving_files env commit)).1.isEmpty with
    | true =>
      have : (classify_partition env.classify cfg read
          (surviving_files env commit)).1 = [] := List.isEmpty_iff.mp h1
      simp [h1, this]
    | false =>
      cases h2 : (classify_partition env.classify cfg read
          (surviving_files env commit)).2.isEmpty with
      | true =>
        have : (classify_partition env.classify cfg read
            (surviving_files env commit)).2 = [] := List.isEmpty_iff.mp h2
        simp [h1, h2, this]
      | false =>
        simp [h1, h2, ← List.isEmpty_iff]

/-- Candidates the Phase A loop body emits have non-empty partitions as
fields. -/
theorem process_commit_with_some (env : MiningEnv) (cfg : Config)
    (read : String → Option String) (commit : Commit) (c : CommitCandidate)
    (h : process_commit_with env cfg read commit = some c) :
    c.definition_files ≠ [] ∧ c.proof_files ≠ [] := by
  simp only [process_commit_with] at h
  split at h
  · exact absurd h (by simp)
  · split at h
    · next hcond =>
      rw [Option.some.injEq] at h
      subst h
      rw [Bool.and_eq_true] at hcond
      obtain ⟨hc1, hc2⟩ := hcond
      refine ⟨fun hh => ?_, fun hh => ?_⟩
      · have h1 : (classify_partition env.classify cfg read
            (surviving_files env commit)).1 = [] := hh
        rw [h1] at hc1
        simp at hc1
      · have h2 : (classify_partition env.classify cfg read
            (surviving_files env commit)).2 = [] := hh
        rw [h2] at hc2
        simp at hc2
    · exact absurd h (by simp)

/-- `process_commit_with_isSome` specialised to the working-tree content
source the pipeline uses. -/
theorem process_commit_isSome (env : MiningEnv) (cfg : Config)
    (commit : Commit) :
    (process_commit env cfg commit).isSome = true ↔
      ((commit_partition env cfg commit).1 ≠ [] ∧
       (commit_partition env cfg commit).2 ≠ []) :=
  process_commit_with_isSome env cfg env.disk commit

/-- Every member of the Phase A output comes from some walked commit via
the loop body. -/
theorem mem_identify_candidates_from (cfg : Config)
    (pc : Commit → Option CommitCandidate) :
    ∀ (cs : List Commit) (n : Int) (c : CommitCandidate),
      c ∈ identify_candidates_from cfg pc cs n →
      ∃ commit, commit ∈ cs ∧ pc commit = some c := by
  intro cs
  induction cs with
  | nil =>
    intro n c hc
    simp [identify_candidates_from] at hc
  | cons head rest ih =>
    intro n c hc
    rw [identify_candidates_from] at hc
    split at hc
    · simp at hc
    · split at hc
      · next cand heq =>
        rcases List.mem_cons.mp hc with hc | hc
        · exact ⟨head, List.mem_cons_self head rest, by rw [heq, hc]⟩
        · obtain ⟨commit, hmem, hpc⟩ := ih (n + 1) c hc
          exact ⟨commit, List.mem_cons_of_mem head hmem, hpc⟩
      · next heq =>
        obtain ⟨commit, hmem, hpc⟩ := ih (n + 1) c hc
        exact ⟨commit, List.mem_cons_of_mem head hmem, hpc⟩

/-- C3: Phase A emits a candidate for a commit iff, after dropping
excluded paths and classifying the surviving files, both the definition
partition and the qualifying-proof partition are non-empty; every emitted
candidate carries non-empty `definition_files` and `proof_files`; and a
commit whose definition partition is empty yields no candidate. -/
theorem c3_candidate_iff :
    (∀ (env : MiningEnv) (cfg : Config) (commit : Commit),
        (process_commit env cfg commit).isSome = true ↔
          ((commit_partition env cfg commit).1 ≠ [] ∧
           (commit_partition env cfg commit).2 ≠ [])) ∧
    (∀ (env : MiningEnv) (cfg : Config) (c : CommitCandidate),
        c ∈ identify_candidates env cfg →
        c.definition_files ≠ [] ∧ c.proof_files ≠ []) ∧
    (∀ (env : MiningEnv) (cfg : Config) (commit : Commit),
        (commit_partition env cfg commit).1 = [] →
        process_commit env cfg commit = none) := by
  refine ⟨?_, ?_, ?_⟩
  · intro env cfg commit
    exact process_commit_isSome env cfg commit
  · intro env cfg c hc
    obtain ⟨commit, -, hp⟩ :=
      mem_identify_candidates_from cfg (process_commit env cfg)
        env.commits 0 c hc
    exact process_commit_with_some env cfg env.disk commit c hp
  · intro env cfg commit h0
    have h0e : ¬((process_commit env cfg commit).isSome = true) := by
      intro hs
      obtain ⟨hd, -⟩ := (process_commit_isSome env cfg commit).mp hs
      exact hd h0
    cases hx : process_commit env cfg commit with
    | none => rfl
    | some c => rw [hx] at h0e; exact absurd rfl h0e

/-- C3 witness: the theorem applied to the concrete two-commit scenario
(an emitted candidate has non-empty fields; a commit with a qualifying
proof change but no definition change emits nothing; and the emitting
commit satisfies the iff forward). -/
theorem c3_candidate_iff_witness :
    (cand_a3.definition_files ≠ [] ∧ cand_a3.proof_files ≠ []) ∧
    process_commit env_n3 cfg_demo commit_a3 = none ∧
    (process_commit env_c7 cfg_demo commit_a3).isSome = true :=
  ⟨c3_candidate_iff.2.1 env_c7 cfg_demo cand_a3 (by decide),
   c3_candidate_iff.2.2 env_n3 cfg_demo commit_a3 (by decide),
   (c3_candidate_iff.1 env_c7 cfg_demo commit_a3).mpr
     ⟨by decide, by decide⟩⟩
